import Mathlib

/-!
Shallow embedding of `codex-rs/tui/src/file_search.rs`: the file-search
orchestration layer (`FileSearchManager`) of the codex TUI.

Strings from the Rust code (queries, paths) are modelled as `List Char`;
Rust's `str::starts_with` becomes `List.isPrefixOf` (for UTF-8 strings a
character-sequence prefix is exactly a byte-sequence prefix).  The shared
`Arc<AtomicBool>` cancellation tokens are modelled by natural-number
identifiers (`Arc::ptr_eq` becomes equality of identifiers) together with a
heap `flags : Nat → Bool` recording each token's current boolean value.
Wall-clock readings (`start.elapsed() >= …`, `last_progress.elapsed() >= …`),
tick statuses, the notify flag and the matcher snapshot are environment
inputs, observed afresh on each iteration of the engine-worker loop; a run of
the loop is therefore a function of the list of per-iteration observations.
-/

namespace FileSearch

/-- One ranked result produced by the matcher snapshot:
`FileMatch { path, indices }` in the Rust code. -/
structure FileMatch where
  path : List Char
  indices : List Nat
deriving DecidableEq, Repr

/-- A `FileSearchResult` event as published to the `AppEventSender`:
`AppEvent::FileSearchResult { query, matches }`. -/
structure Emission where
  query : List Char
  found : List FileMatch
deriving DecidableEq, Repr

/-- `TickStatus { running, changed }` returned by `SearchManager::tick`. -/
structure TickStatus where
  running : Bool
  changed : Bool
deriving DecidableEq, Repr

/-- `ActiveSearch { query, cancellation_token }`.  The token is the identifier
of a shared atomic boolean; `Arc::ptr_eq` on two tokens is equality of the
identifiers. -/
structure ActiveSearch where
  query : List Char
  cancellationToken : Nat
deriving DecidableEq, Repr

/-- `SearchState { latest_query, is_search_scheduled, active_search }`,
the state guarded by the orchestrator's single mutex. -/
structure SearchState where
  latestQuery : List Char
  isSearchScheduled : Bool
  activeSearch : Option ActiveSearch
deriving DecidableEq, Repr

/-- The orchestrator state together with the heap of atomic booleans:
`flags t` is the current value of the cancellation token with identifier
`t`. -/
structure OrchState where
  st : SearchState
  flags : Nat → Bool

/-- `FileSearchManager::new`: `latest_query` is the empty string, no search is
scheduled, no search is active.  All token cells are modelled as initially
false. -/
def initOrch : OrchState :=
  { st := { latestQuery := [], isSearchScheduled := false, activeSearch := none }
    flags := fun _ => false }

/-- `FileSearchManager::on_user_query(query)`.  Returns the updated state
together with a flag that is `true` exactly when the call spawned a debounce
worker thread (`thread::spawn` at the end of the function).

Mirrors the source order:
1. if `query == st.latest_query`, return (no change);
2. update `latest_query`;
3. if an active search exists whose query is not a prefix of `query`,
   store `true` into its cancellation token and clear `active_search`;
4. if `is_search_scheduled` is already set, return without spawning;
   otherwise set it and spawn the debounce worker. -/
def onUserQuery (o : OrchState) (query : List Char) : OrchState × Bool :=
  if query = o.st.latestQuery then (o, false)
  else
    let st1 : SearchState := { o.st with latestQuery := query }
    let cancelHit : OrchState :=
      match o.st.activeSearch with
      | some activeSearch =>
          if activeSearch.query.isPrefixOf query then { st := st1, flags := o.flags }
          else
            { st := { st1 with activeSearch := none }
              flags := fun t =>
                if t = activeSearch.cancellationToken then true else o.flags t }
      | none => { st := st1, flags := o.flags }
    if cancelHit.st.isSearchScheduled then (cancelHit, false)
    else ({ cancelHit with st := { cancelHit.st with isSearchScheduled := true } }, true)

/-- The body of the debounce worker once its poll loop has seen
`active_search == None`: snapshot `latest_query`, clear
`is_search_scheduled`, install a fresh cancellation token (a newly allocated
`AtomicBool::new(false)`, modelled by the fresh identifier `newTok`) and
record the new `ActiveSearch`.  Returns the updated state and the query that
the spawned engine worker will search for. -/
def debounceFire (o : OrchState) (newTok : Nat) : OrchState × List Char :=
  let query := o.st.latestQuery
  ({ st := { latestQuery := query
             isSearchScheduled := false
             activeSearch := some { query := query, cancellationToken := newTok } }
     flags := fun t => if t = newTok then false else o.flags t }, query)

/-- `ActiveSearchGuard::drop`: under the lock, if an active search is stored
and its cancellation token is pointer-identical (`Arc::ptr_eq`) to the
guard's token, clear `active_search`; otherwise leave the state untouched. -/
def guardDrop (st : SearchState) (token : Nat) : SearchState :=
  match st.activeSearch with
  | some activeSearch =>
      if activeSearch.cancellationToken = token then { st with activeSearch := none }
      else st
  | none => st

/-- Reachability invariant of the orchestrator: whenever an active search is
stored, its query is a prefix of `latest_query`. -/
def stateInv (o : OrchState) : Prop :=
  ∀ a : ActiveSearch, o.st.activeSearch = some a →
    a.query.isPrefixOf o.st.latestQuery = true

/-! ### The engine worker loop (`FileSearchManager::spawn_file_search`)

Each iteration of the `loop` in `spawn_file_search` observes its environment:
the cancellation token is loaded three times (top of the loop before
`manager.cancel()`, inside `should_emit`, and at the `break` check), the tick
returns a `TickStatus`, the notify flag is swapped out, the matcher snapshot
is read, and the two clock comparisons are evaluated.  `Obs` packages one
iteration's observations; a run of the loop consumes a list of them. -/

/-- Environment observations of one iteration of the engine worker loop. -/
structure Obs where
  /-- value of `cancellation_token.load` at the top of the loop. -/
  cancelTop : Bool
  /-- value of `cancellation_token.load` inside `should_emit`. -/
  cancelEmit : Bool
  /-- value of `cancellation_token.load` at the `break` check. -/
  cancelBreak : Bool
  /-- `manager.tick(SEARCH_MANAGER_TICK_TIMEOUT)`. -/
  status : TickStatus
  /-- `notify_flag.swap(false)`. -/
  flagWasSet : Bool
  /-- `manager.current_results().matches`. -/
  snapshot : List FileMatch
  /-- `start.elapsed() >= SEARCH_MANAGER_FIRST_RESULT_TIMEOUT`. -/
  timeoutElapsed : Bool
  /-- `last_progress.elapsed() >= SEARCH_MANAGER_FIRST_RESULT_TIMEOUT`. -/
  progressTimeout : Bool
deriving DecidableEq, Repr

/-- The token is an atomic boolean that is only ever stored `true`: within an
iteration the three loads are monotone, and across iterations a `true` load is
never followed by a `false` one. -/
def stickyTrace : List Obs → Prop
  | [] => True
  | o :: rest =>
      (o.cancelTop = true → o.cancelEmit = true) ∧
      (o.cancelEmit = true → o.cancelBreak = true) ∧
      (∀ o' ∈ rest, o.cancelBreak = true → o'.cancelTop = true) ∧
      stickyTrace rest

/-- Loop-local mutable state: `last_sent_paths` and `sent_once`. -/
structure LoopState where
  lastSentPaths : List (List Char)
  sentOnce : Bool
deriving DecidableEq, Repr

/-- `let mut last_sent_paths = Vec::new(); let mut sent_once = false;` -/
def initLoopState : LoopState := { lastSentPaths := [], sentOnce := false }

/-- `matches.iter().map(|m| m.path.clone()).collect()`. -/
def pathsOf (ms : List FileMatch) : List (List Char) := ms.map FileMatch.path

/-- `should_emit` of one iteration:
`!cancellation_token.load() && (paths_changed || (!sent_once && (flag_was_set
|| status.changed || !status.running || timeout_elapsed)))`. -/
def shouldEmit (o : Obs) (s : LoopState) : Bool :=
  !o.cancelEmit &&
    (decide (pathsOf o.snapshot ≠ s.lastSentPaths) ||
      (!s.sentOnce &&
        (o.flagWasSet || o.status.changed || !o.status.running || o.timeoutElapsed)))

/-- The outcome of one iteration of the engine worker loop: the loop either
breaks after the iteration, having emitted `ems`, or continues with the
updated loop state. -/
inductive IterResult where
  | brk (ems : List Emission) : IterResult
  | cont (ems : List Emission) (s : LoopState) : IterResult
deriving DecidableEq, Repr

/-- One iteration of the `loop` body of `spawn_file_search`, statement by
statement: compute `paths` and `should_emit`; emit and update
`last_sent_paths`/`sent_once` if `should_emit`; break if cancelled and
`sent_once`; if the tick reports no running work and the notify flag was
clear, break on the progress timeout when `sent_once`, or emit once more and
break on the first-result deadline when not. -/
def loopIter (query : List Char) (o : Obs) (s : LoopState) : IterResult :=
  let paths := pathsOf o.snapshot
  let se := shouldEmit o s
  let em1 : List Emission := if se then [{ query := query, found := o.snapshot }] else []
  let s1 : LoopState := if se then { lastSentPaths := paths, sentOnce := true } else s
  if o.cancelBreak && s1.sentOnce then .brk em1
  else if !o.status.running && !o.flagWasSet then
    if s1.sentOnce then
      if o.progressTimeout then .brk em1 else .cont em1 s1
    else if o.timeoutElapsed then
      .brk (em1 ++ [{ query := query, found := o.snapshot }])
    else .cont em1 s1
  else .cont em1 s1

/-- One run of the engine worker `loop`, consuming the per-iteration
observations in order.  Returns the list of `FileSearchResult` emissions in
order, and `true` iff the loop reached a `break` (`false` meaning the
observation list ran out while the loop was still going). -/
def runLoop (query : List Char) : List Obs → LoopState → List Emission × Bool
  | [], _ => ([], false)
  | o :: rest, s =>
      match loopIter query o s with
      | .brk ems => (ems, true)
      | .cont ems s1 =>
          let r := runLoop query rest s1
          (ems ++ r.1, r.2)

/-- The whole engine worker thread body: if `SearchManager::new` fails
(`initOk = false`), send one `FileSearchResult { query, matches: vec![] }`
and return; otherwise run the loop on the observation trace.  The returned
boolean is `true` iff the worker terminated (rather than the trace running
out). -/
def engineWorker (query : List Char) (initOk : Bool) (trace : List Obs) :
    List Emission × Bool :=
  if initOk then runLoop query trace initLoopState
  else ([{ query := query, found := [] }], true)

/-! ### System-level transition relation

Threads of one `FileSearchManager` session: the caller invoking
`on_user_query`, the at-most-one debounce worker, and engine workers whose
`ActiveSearchGuard` runs `guardDrop` on exit.  `debounceCount` counts live
debounce worker threads; `nextTok` supplies fresh token identifiers. -/

structure SysState where
  orch : OrchState
  debounceCount : Nat
  nextTok : Nat

/-- A fresh `FileSearchManager`: no debounce worker, no tokens allocated. -/
def initSys : SysState :=
  { orch := initOrch, debounceCount := 0, nextTok := 0 }

/-- One observable step of the session. -/
inductive SysStep : SysState → SysState → Prop
  /-- the caller runs `on_user_query q`; a debounce worker is spawned iff the
  call's spawn flag is set. -/
  | userQuery (s : SysState) (q : List Char) :
      SysStep s
        { orch := (onUserQuery s.orch q).1
          debounceCount :=
            s.debounceCount + (if (onUserQuery s.orch q).2 then 1 else 0)
          nextTok := s.nextTok }
  /-- a live debounce worker's poll loop sees `active_search == None` and
  fires, spawning the engine worker and exiting the debounce thread. -/
  | debounceFires (s : SysState) (hLive : 1 ≤ s.debounceCount)
      (hIdle : s.orch.st.activeSearch = none) :
      SysStep s
        { orch := (debounceFire s.orch s.nextTok).1
          debounceCount := s.debounceCount - 1
          nextTok := s.nextTok + 1 }
  /-- an engine worker exits; its `ActiveSearchGuard` drops with its token. -/
  | engineExit (s : SysState) (token : Nat) :
      SysStep s
        { orch := { st := guardDrop s.orch.st token, flags := s.orch.flags }
          debounceCount := s.debounceCount
          nextTok := s.nextTok }

/-- States reachable from a fresh `FileSearchManager`. -/
def Reachable (s : SysState) : Prop :=
  Relation.ReflTransGen SysStep initSys s

/-! ### Basic facts about `onUserQuery` -/

/-- After any `on_user_query(q)` call, `latest_query = q` (either it already
was, or the call just stored it). -/
theorem onUserQuery_latestQuery (o : OrchState) (q : List Char) :
    ((onUserQuery o q).1).st.latestQuery = q := by
  by_cases h : q = o.st.latestQuery
  · simp [onUserQuery, h]
  · rcases hA : o.st.activeSearch with _ | a
    · simp only [onUserQuery, h, hA, if_neg h]
      split_ifs <;> simp_all
    · by_cases hp : a.query.isPrefixOf q = true
      · simp only [onUserQuery, h, hA, if_neg h, hp]
        split_ifs <;> simp_all
      · simp only [onUserQuery, h, hA, if_neg h, hp]
        split_ifs <;> simp_all

/-- If the query equals `latest_query`, `on_user_query` returns at once with
nothing changed and no thread spawned. -/
theorem onUserQuery_noop (o : OrchState) (q : List Char)
    (h : q = o.st.latestQuery) : onUserQuery o q = (o, false) := by
  unfold onUserQuery
  simp [h]

/-- `is_search_scheduled` after `on_user_query`: unchanged on the early
return, forced to `true` otherwise. -/
theorem onUserQuery_sched (o : OrchState) (q : List Char) :
    ((onUserQuery o q).1).st.isSearchScheduled =
      (o.st.isSearchScheduled || !decide (q = o.st.latestQuery)) := by
  by_cases h : q = o.st.latestQuery
  · simp [onUserQuery, h]
  · rcases hA : o.st.activeSearch with _ | a
    · simp only [onUserQuery, h, hA, if_neg h]
      split_ifs with hs <;> simp_all
    · by_cases hp : a.query.isPrefixOf q = true
      · simp only [onUserQuery, h, hA, if_neg h, hp]
        split_ifs with hs <;> simp_all
      · simp only [onUserQuery, h, hA, if_neg h, hp]
        split_ifs with hs <;> simp_all

/-- The spawn flag of `on_user_query`: a debounce worker is spawned exactly
when the query changed and no search was scheduled. -/
theorem onUserQuery_spawn (o : OrchState) (q : List Char) :
    (onUserQuery o q).2 = (!decide (q = o.st.latestQuery) && !o.st.isSearchScheduled) := by
  by_cases h : q = o.st.latestQuery
  · simp [onUserQuery, h]
  · rcases hA : o.st.activeSearch with _ | a
    · simp only [onUserQuery, h, hA, if_neg h]
      split_ifs with hs <;> simp_all
    · by_cases hp : a.query.isPrefixOf q = true
      · simp only [onUserQuery, h, hA, if_neg h, hp]
        split_ifs with hs <;> simp_all
      · simp only [onUserQuery, h, hA, if_neg h, hp]
        split_ifs with hs <;> simp_all

/-- `active_search` after `on_user_query` is either untouched or cleared. -/
theorem onUserQuery_active (o : OrchState) (q : List Char) :
    ((onUserQuery o q).1).st.activeSearch = o.st.activeSearch ∨
      ((onUserQuery o q).1).st.activeSearch = none := by
  by_cases h : q = o.st.latestQuery
  · simp [onUserQuery, h]
  · rcases hA : o.st.activeSearch with _ | a
    · simp only [onUserQuery, h, hA, if_neg h]
      split_ifs <;> simp [hA]
    · by_cases hp : a.query.isPrefixOf q = true
      · simp only [onUserQuery, h, hA, if_neg h, hp]
        split_ifs <;> simp [hA]
      · simp only [onUserQuery, h, hA, if_neg h, hp]
        split_ifs <;> simp [hA]

/-- If the stored active search's query is not a prefix of the new query,
the new query cannot equal `latest_query` (given the reachability
invariant), because the active query is always a prefix of
`latest_query`. -/
theorem nonprefix_not_latest (o : OrchState) (q : List Char) (a : ActiveSearch)
    (hInv : stateInv o) (hA : o.st.activeSearch = some a)
    (hNP : a.query.isPrefixOf q = false) : ¬ q = o.st.latestQuery := by
  intro he
  have hpre := hInv a hA
  rw [← he] at hpre
  rw [hpre] at hNP
  cases hNP

/-- The cancellation branch of `on_user_query`: a changed query that the
active query is not a prefix of stores `true` into the active search's
cancellation token and clears `active_search`. -/
theorem onUserQuery_cancel_core (o : OrchState) (q : List Char) (a : ActiveSearch)
    (hq : ¬ q = o.st.latestQuery) (hA : o.st.activeSearch = some a)
    (hNP : a.query.isPrefixOf q = false) :
    ((onUserQuery o q).1).flags a.cancellationToken = true ∧
    ((onUserQuery o q).1).st.activeSearch = none := by
  simp only [onUserQuery, if_neg hq, hA, hNP]
  split_ifs <;> simp_all

/-- The prefix-continuation branch of `on_user_query`: when the active query
is a prefix of the new query, the active search and the token heap are left
untouched. -/
theorem onUserQuery_keeps_active (o : OrchState) (q : List Char) (a : ActiveSearch)
    (hA : o.st.activeSearch = some a) (hp : a.query.isPrefixOf q = true) :
    ((onUserQuery o q).1).st.activeSearch = some a ∧
    ((onUserQuery o q).1).flags = o.flags := by
  by_cases h : q = o.st.latestQuery
  · rw [onUserQuery_noop o q h]
    exact ⟨hA, rfl⟩
  · simp only [onUserQuery, if_neg h, hA, hp]
    split_ifs <;> exact ⟨rfl, rfl⟩

/-! ### The reachability invariant -/

/-- `stateInv` holds for a fresh manager. -/
theorem stateInv_init : stateInv initOrch := by
  intro a ha
  simp [initOrch] at ha

/-- `on_user_query` preserves `stateInv`. -/
theorem stateInv_onUserQuery (o : OrchState) (q : List Char) (hInv : stateInv o) :
    stateInv (onUserQuery o q).1 := by
  intro a ha
  rw [onUserQuery_latestQuery]
  by_cases h : q = o.st.latestQuery
  · rw [onUserQuery_noop o q h] at ha
    exact h ▸ hInv a ha
  · rcases hA : o.st.activeSearch with _ | b
    · simp only [onUserQuery, if_neg h, hA] at ha
      split_ifs at ha
    · by_cases hp : b.query.isPrefixOf q = true
      · simp only [onUserQuery, if_neg h, hA, hp] at ha
        split_ifs at ha <;> simp_all
      · simp only [onUserQuery, if_neg h, hA, hp] at ha
        split_ifs at ha <;> simp_all

/-- Firing the debounce worker preserves `stateInv`: the new active search's
query is the snapshot of `latest_query` itself. -/
theorem stateInv_debounceFire (o : OrchState) (newTok : Nat) :
    stateInv (debounceFire o newTok).1 := by
  intro a ha
  simp only [debounceFire, Option.some.injEq] at ha
  rw [← ha]
  simp [debounceFire, List.isPrefixOf_iff_prefix]

/-- `guardDrop` never touches `latest_query`. -/
theorem guardDrop_latestQuery (st : SearchState) (token : Nat) :
    (guardDrop st token).latestQuery = st.latestQuery := by
  unfold guardDrop
  split
  · split_ifs <;> rfl
  · rfl

/-- `guardDrop` never touches `is_search_scheduled`. -/
theorem guardDrop_isSearchScheduled (st : SearchState) (token : Nat) :
    (guardDrop st token).isSearchScheduled = st.isSearchScheduled := by
  unfold guardDrop
  split
  · split_ifs <;> rfl
  · rfl

/-- An engine worker's guard drop preserves `stateInv`. -/
theorem stateInv_guardDrop (o : OrchState) (token : Nat) (f : Nat → Bool)
    (hInv : stateInv o) : stateInv { st := guardDrop o.st token, flags := f } := by
  intro a ha
  simp only at ha ⊢
  rw [guardDrop_latestQuery]
  unfold guardDrop at ha
  rcases hA : o.st.activeSearch with _ | b <;> simp only [hA] at ha
  · cases ha
  · split_ifs at ha
    exact hInv a ha

/-- Every reachable state of the session satisfies `stateInv`. -/
theorem stateInv_reachable (s : SysState) (h : Reachable s) : stateInv s.orch := by
  induction h with
  | refl => exact stateInv_init
  | tail hsteps hstep ih =>
      cases hstep with
      | userQuery q => exact stateInv_onUserQuery _ _ ih
      | debounceFires hLive hIdle => exact stateInv_debounceFire _ _
      | engineExit token => exact stateInv_guardDrop _ _ _ ih

/-! ### The debounce-worker counting invariant -/

/-- The number of live debounce workers is `1` when a search is scheduled and
`0` otherwise. -/
def schedInv (s : SysState) : Prop :=
  s.debounceCount = if s.orch.st.isSearchScheduled then 1 else 0

/-- `schedInv` holds for a fresh manager. -/
theorem schedInv_init : schedInv initSys := rfl

/-- Every step of the session preserves `schedInv`. -/
theorem schedInv_step (s s' : SysState) (hstep : SysStep s s') (h : schedInv s) :
    schedInv s' := by
  cases hstep with
  | userQuery q =>
      unfold schedInv at h ⊢
      simp only [onUserQuery_sched, onUserQuery_spawn]
      by_cases hq : q = s.orch.st.latestQuery <;>
        by_cases hs : s.orch.st.isSearchScheduled <;> simp_all
  | debounceFires hLive hIdle =>
      unfold schedInv at h ⊢
      simp only [debounceFire]
      by_cases hs : s.orch.st.isSearchScheduled <;> simp [hs] at h ⊢ <;> omega
  | engineExit token =>
      unfold schedInv at h ⊢
      simp only [guardDrop_isSearchScheduled]
      exact h

/-- Every reachable state of the session satisfies `schedInv`. -/
theorem schedInv_reachable (s : SysState) (h : Reachable s) : schedInv s := by
  induction h with
  | refl => exact schedInv_init
  | tail hsteps hstep ih => exact schedInv_step _ _ hstep ih

/-! ### Concrete states used by witnesses and counterexamples -/

/-- An orchestrator state in which a search for `"a"` is active (its token has
identifier `0`), `latest_query = "a"`, and no further search is scheduled:
exactly the state right after the debounce worker fired for `"a"`. -/
def runningState : OrchState :=
  { st := { latestQuery := ['a'], isSearchScheduled := false
            activeSearch := some { query := ['a'], cancellationToken := 0 } }
    flags := fun _ => false }

/-- `runningState` satisfies the reachability invariant. -/
theorem runningState_inv : stateInv runningState := by
  intro a ha
  simp only [runningState, Option.some.injEq] at ha
  rw [← ha]
  decide

/-- An orchestrator state with a search scheduled (a live debounce worker). -/
def schedState : OrchState :=
  { st := { latestQuery := ['a'], isSearchScheduled := true, activeSearch := none }
    flags := fun _ => false }

/-! ### Claims about the orchestrator -/

/-- **C2.** Whenever `on_user_query(q)` is called while an active search
exists and `q` is not an extension of the active search's query (the active
query is not a prefix of `q`), the call stores `true` into that search's
cancellation token (and clears `active_search`).  The hypothesis `stateInv o`
is the reachability invariant proved in `stateInv_reachable`: the active
query is always a prefix of `latest_query`. -/
theorem onUserQuery_cancels_nonprefix (o : OrchState) (q : List Char)
    (a : ActiveSearch) (hInv : stateInv o) (hA : o.st.activeSearch = some a)
    (hNP : a.query.isPrefixOf q = false) :
    ((onUserQuery o q).1).flags a.cancellationToken = true ∧
    ((onUserQuery o q).1).st.activeSearch = none :=
  onUserQuery_cancel_core o q a (nonprefix_not_latest o q a hInv hA hNP) hA hNP

/-- Witness for C2: with a search for `"a"` active, the query `"b"` sets the
active search's cancellation flag. -/
theorem onUserQuery_cancels_nonprefix_witness :
    ((onUserQuery runningState ['b']).1).flags 0 = true ∧
    ((onUserQuery runningState ['b']).1).st.activeSearch = none :=
  onUserQuery_cancels_nonprefix runningState ['b']
    { query := ['a'], cancellationToken := 0 } runningState_inv rfl (by decide)

/-- **C3 counterexample.** The claim says that when `q` strictly extends the
active query, `on_user_query(q)` "does not cancel the active search and only
updates `latest_query`".  In the state `runningState` (active search `"a"`,
nothing scheduled), the call `on_user_query("ab")` indeed does not cancel —
but it does more than update `latest_query`: it also sets
`is_search_scheduled` and spawns a debounce worker thread. -/
theorem prefix_extension_counterexample :
    runningState.st.activeSearch = some { query := ['a'], cancellationToken := 0 } ∧
    (['a'].isPrefixOf ['a', 'b']) = true ∧
    runningState.st.isSearchScheduled = false ∧
    (onUserQuery runningState ['a', 'b']).2 = true ∧
    ((onUserQuery runningState ['a', 'b']).1).st.isSearchScheduled = true ∧
    ((onUserQuery runningState ['a', 'b']).1).st.activeSearch
      = some { query := ['a'], cancellationToken := 0 } ∧
    ((onUserQuery runningState ['a', 'b']).1).flags 0 = false :=
  ⟨rfl, by decide, rfl, rfl, rfl, rfl, rfl⟩

/-- **C3 (amended).** After `on_user_query(q)`: if the active search's query
is not a prefix of the updated `latest_query`, its cancellation flag has been
set (and `active_search` cleared).  Conversely, if the active query is a
prefix of `q`, the active search and the token heap are untouched and the
call updates `latest_query` — but it may additionally arm the debounce
(setting `is_search_scheduled` and spawning a debounce worker) when none was
armed and the query changed. -/
theorem onUserQuery_prefix_rule (o : OrchState) (q : List Char)
    (a : ActiveSearch) (hInv : stateInv o) (hA : o.st.activeSearch = some a) :
    (a.query.isPrefixOf ((onUserQuery o q).1).st.latestQuery = false →
      ((onUserQuery o q).1).flags a.cancellationToken = true ∧
      ((onUserQuery o q).1).st.activeSearch = none) ∧
    (a.query.isPrefixOf q = true →
      ((onUserQuery o q).1).st.activeSearch = some a ∧
      ((onUserQuery o q).1).flags = o.flags ∧
      ((onUserQuery o q).1).st.latestQuery = q ∧
      ((onUserQuery o q).1).st.isSearchScheduled =
        (o.st.isSearchScheduled || !decide (q = o.st.latestQuery)) ∧
      (onUserQuery o q).2 =
        (!decide (q = o.st.latestQuery) && !o.st.isSearchScheduled)) := by
  constructor
  · intro hNP
    rw [onUserQuery_latestQuery] at hNP
    exact onUserQuery_cancel_core o q a (nonprefix_not_latest o q a hInv hA hNP) hA hNP
  · intro hp
    obtain ⟨h1, h2⟩ := onUserQuery_keeps_active o q a hA hp
    exact ⟨h1, h2, onUserQuery_latestQuery o q, onUserQuery_sched o q, onUserQuery_spawn o q⟩

/-- Witness for C3 (amended): both branches at concrete states. -/
theorem onUserQuery_prefix_rule_witness :
    ((onUserQuery runningState ['b']).1).st.activeSearch = none ∧
    ((onUserQuery runningState ['a', 'b']).1).st.activeSearch
      = some { query := ['a'], cancellationToken := 0 } :=
  ⟨((onUserQuery_prefix_rule runningState ['b']
      { query := ['a'], cancellationToken := 0 } runningState_inv rfl).1 (by decide)).2,
   ((onUserQuery_prefix_rule runningState ['a', 'b']
      { query := ['a'], cancellationToken := 0 } runningState_inv rfl).2 (by decide)).1⟩

/-- **C4.** Calling `on_user_query(q)` when `q` equals the stored
`latest_query` is a no-op: the state is returned unchanged and no debounce
worker is spawned.  Consequently two consecutive calls with the same `q`
leave the state exactly as after the first call. -/
theorem onUserQuery_idempotent (o : OrchState) (q : List Char) :
    (o.st.latestQuery = q → onUserQuery o q = (o, false)) ∧
    onUserQuery (onUserQuery o q).1 q = ((onUserQuery o q).1, false) :=
  ⟨fun h => onUserQuery_noop o q h.symm,
   onUserQuery_noop _ q (onUserQuery_latestQuery o q).symm⟩

/-- Witness for C4. -/
theorem onUserQuery_idempotent_witness :
    onUserQuery initOrch [] = (initOrch, false) ∧
    onUserQuery (onUserQuery initOrch ['a']).1 ['a']
      = ((onUserQuery initOrch ['a']).1, false) :=
  ⟨(onUserQuery_idempotent initOrch []).1 rfl,
   (onUserQuery_idempotent initOrch ['a']).2⟩

/-- **C6.** `ActiveSearchGuard::drop` clears `active_search` exactly when the
stored active search's cancellation token is pointer-identical to the
guard's token; when a different token is stored (a newer search replaced it)
the whole `SearchState` is left unchanged, and `latest_query` and
`is_search_scheduled` are never touched. -/
theorem activeSearchGuard_drop_spec (st : SearchState) (token : Nat)
    (a : ActiveSearch) (hA : st.activeSearch = some a) :
    ((guardDrop st token).activeSearch = none ↔ a.cancellationToken = token) ∧
    (a.cancellationToken ≠ token → guardDrop st token = st) ∧
    (guardDrop st token).latestQuery = st.latestQuery ∧
    (guardDrop st token).isSearchScheduled = st.isSearchScheduled := by
  unfold guardDrop
  simp only [hA]
  by_cases h : a.cancellationToken = token <;> simp [h, hA]

/-- Witness for C6: dropping with the matching token `5` clears the active
search; dropping with the stale token `3` changes nothing. -/
theorem activeSearchGuard_drop_spec_witness :
    (guardDrop { latestQuery := ['g'], isSearchScheduled := true
                 activeSearch := some { query := ['g'], cancellationToken := 5 } } 5).activeSearch
      = none ∧
    guardDrop { latestQuery := ['g'], isSearchScheduled := true
                activeSearch := some { query := ['g'], cancellationToken := 5 } } 3
      = { latestQuery := ['g'], isSearchScheduled := true
          activeSearch := some { query := ['g'], cancellationToken := 5 } } :=
  ⟨(activeSearchGuard_drop_spec _ 5 _ rfl).1.mpr rfl,
   (activeSearchGuard_drop_spec _ 3 _ rfl).2.1 (by decide)⟩

/-- **C7.** At most one debounce worker exists at any time: in every
reachable session state the count of live debounce workers is at most `1`;
`on_user_query` spawns one only when `is_search_scheduled` was `false`,
setting it `true` in the same call; and while `is_search_scheduled` is
`true`, a further call spawns nothing and only updates `latest_query`
(possibly cancelling the active search). -/
theorem debounce_worker_unique :
    (∀ s : SysState, Reachable s → s.debounceCount ≤ 1) ∧
    (∀ (o : OrchState) (q : List Char), (onUserQuery o q).2 = true →
      o.st.isSearchScheduled = false ∧
      ((onUserQuery o q).1).st.isSearchScheduled = true) ∧
    (∀ (o : OrchState) (q : List Char), o.st.isSearchScheduled = true →
      (onUserQuery o q).2 = false ∧
      ((onUserQuery o q).1).st.isSearchScheduled = true ∧
      ((onUserQuery o q).1).st.latestQuery = q ∧
      (((onUserQuery o q).1).st.activeSearch = o.st.activeSearch ∨
        ((onUserQuery o q).1).st.activeSearch = none)) := by
  refine ⟨fun s hs => ?_, fun o q hsp => ?_, fun o q hsch => ?_⟩
  · have h := schedInv_reachable s hs
    unfold schedInv at h
    split at h <;> omega
  · rw [onUserQuery_spawn] at hsp
    simp only [Bool.and_eq_true, Bool.not_eq_true'] at hsp
    refine ⟨hsp.2, ?_⟩
    rw [onUserQuery_sched, hsp.2, hsp.1]
    rfl
  · refine ⟨?_, ?_, onUserQuery_latestQuery o q, onUserQuery_active o q⟩
    · rw [onUserQuery_spawn, hsch]
      simp
    · rw [onUserQuery_sched, hsch]
      rfl

/-- Witness for C7. -/
theorem debounce_worker_unique_witness :
    initSys.debounceCount ≤ 1 ∧
    (onUserQuery initOrch ['a']).2 = true ∧
    (onUserQuery schedState ['b']).2 = false :=
  ⟨debounce_worker_unique.1 initSys Relation.ReflTransGen.refl,
   by rfl,
   (debounce_worker_unique.2.2 schedState ['b'] rfl).1⟩

/-- **C10.** On a freshly constructed `FileSearchManager`, `latest_query` is
initialised to the empty string, so calling `on_user_query("")` is a no-op:
state unchanged, no debounce worker spawned, no search started. -/
theorem fresh_manager_empty_query_noop :
    initOrch.st.latestQuery = [] ∧
    onUserQuery initOrch [] = (initOrch, false) :=
  ⟨rfl, onUserQuery_noop initOrch [] rfl⟩

/-! ### Facts about the engine worker loop -/

/-- `should_emit` is false whenever the cancellation token reads true at its
load. -/
theorem shouldEmit_cancelled (o : Obs) (s : LoopState)
    (h : o.cancelEmit = true) : shouldEmit o s = false := by
  unfold shouldEmit
  rw [h]
  rfl

/-- Once `sent_once` is set, `should_emit` requires the snapshot's path
sequence to differ from `last_sent_paths`. -/
theorem shouldEmit_paths_changed (o : Obs) (s : LoopState)
    (hse : shouldEmit o s = true) (hs : s.sentOnce = true) :
    pathsOf o.snapshot ≠ s.lastSentPaths := by
  unfold shouldEmit at hse
  rw [hs] at hse
  simp at hse
  exact hse.2

/-- Exhaustive description of one loop iteration.  When `should_emit` holds,
the iteration emits the snapshot once and records its paths with
`sent_once = true` (breaking or continuing); when it does not, the iteration
emits nothing — except for the single first-result-deadline emission, which
can only happen while `sent_once` is still false and breaks the loop. -/
theorem loopIter_spec (query : List Char) (o : Obs) (s : LoopState) :
    (shouldEmit o s = true ∧
      (loopIter query o s = .brk [{ query := query, found := o.snapshot }] ∨
       loopIter query o s =
         .cont [{ query := query, found := o.snapshot }]
           { lastSentPaths := pathsOf o.snapshot, sentOnce := true })) ∨
    (shouldEmit o s = false ∧
      ((s.sentOnce = true ∧ loopIter query o s = .brk []) ∨
       loopIter query o s = .cont [] s ∨
       (s.sentOnce = false ∧
        loopIter query o s = .brk [{ query := query, found := o.snapshot }]))) := by
  by_cases hse : shouldEmit o s = true
  · left
    refine ⟨hse, ?_⟩
    unfold loopIter
    simp only [hse]
    split_ifs <;> simp_all
  · right
    rw [Bool.not_eq_true] at hse
    refine ⟨hse, ?_⟩
    unfold loopIter
    simp only [hse]
    split_ifs with h1 h2 h3 h4 <;> simp_all

/-- If the engine worker loop breaks, then an emission happened: either
`sent_once` already held on entry or the run's emission list is nonempty. -/
theorem runLoop_break_emits (query : List Char) (trace : List Obs) (s : LoopState)
    (hb : (runLoop query trace s).2 = true) :
    s.sentOnce = true ∨ (runLoop query trace s).1 ≠ [] := by
  induction trace generalizing s with
  | nil => simp [runLoop] at hb
  | cons o rest ih =>
      rcases loopIter_spec query o s with
        ⟨hse, hit | hit⟩ | ⟨hse, ⟨hs, hit⟩ | hit | ⟨hs, hit⟩⟩ <;>
        simp only [runLoop, hit] at hb ⊢
      · right; simp
      · right; simp
      · exact Or.inl hs
      · rcases ih _ hb with h | h
        · exact Or.inl h
        · right; simpa using h
      · right; simp

/-- The de-duplication invariant of the loop: the path sequences of the
emissions form a chain of consecutive inequalities; when `sent_once` already
holds on entry, the chain additionally links `last_sent_paths` to the first
further emission. -/
theorem runLoop_chain (query : List Char) (trace : List Obs) (s : LoopState) :
    (s.sentOnce = true →
      List.Chain' (fun p1 p2 => p1 ≠ p2)
        (s.lastSentPaths :: (runLoop query trace s).1.map (fun e => pathsOf e.found))) ∧
    (s.sentOnce = false →
      List.Chain' (fun p1 p2 => p1 ≠ p2)
        ((runLoop query trace s).1.map (fun e => pathsOf e.found))) := by
  induction trace generalizing s with
  | nil => simp [runLoop]
  | cons o rest ih =>
      rcases loopIter_spec query o s with
        ⟨hse, hit | hit⟩ | ⟨hse, ⟨hs, hit⟩ | hit | ⟨hs, hit⟩⟩ <;>
        simp only [runLoop, hit] <;> constructor <;> intro hsent
      · -- should_emit, break: single emission [snapshot]
        simp only [List.map_cons, List.map_nil, List.chain'_cons, List.chain'_singleton,
          and_true]
        exact fun h => shouldEmit_paths_changed o s hse hsent h.symm
      · simp
      · -- should_emit, continue: emission followed by the rest of the run
        have htail :=
          (ih { lastSentPaths := pathsOf o.snapshot, sentOnce := true }).1 rfl
        simp only [List.singleton_append, List.map_cons]
        rw [List.chain'_cons]
        exact ⟨fun h => shouldEmit_paths_changed o s hse hsent h.symm, htail⟩
      · have htail :=
          (ih { lastSentPaths := pathsOf o.snapshot, sentOnce := true }).1 rfl
        simp only [List.singleton_append, List.map_cons]
        exact htail
      · -- cancelled/progress break with nothing emitted
        simp
      · simp
      · -- continue with nothing emitted
        have htail := (ih s).1 hsent
        simpa using htail
      · have htail := (ih s).2 hsent
        simpa using htail
      · -- first-result-deadline emission while sent_once was still false
        rw [hsent] at hs
        cases hs
      · simp

/-! ### Claims about the engine worker -/

/-- **C5.** If `SearchManager::new` fails, the engine worker publishes
exactly one `FileSearchResult` event, carrying the search query and an empty
match list, and exits without ever ticking: the result is this single
emission for every observation trace, which is therefore never consumed. -/
theorem engineWorker_init_failure (query : List Char) (trace : List Obs) :
    engineWorker query false trace = ([{ query := query, found := [] }], true) := rfl

/-- **C9.** Every engine worker that terminates emits at least one
`FileSearchResult` event before exiting, on every exit path: the
init-failure path emits its single empty event, and every `break` of the
loop is preceded by an emission (`sent_once` starts out false). -/
theorem engineWorker_emits_before_exit (query : List Char) (initOk : Bool)
    (trace : List Obs) (hb : (engineWorker query initOk trace).2 = true) :
    (engineWorker query initOk trace).1 ≠ [] := by
  unfold engineWorker at hb ⊢
  split_ifs at hb ⊢ with h
  · rcases runLoop_break_emits query trace initLoopState hb with hsent | hne
    · exact absurd hsent (by decide)
    · exact hne
  · simp

/-- An observation under which the very first iteration emits (the tick
reports no running work) and then breaks on the progress timeout. -/
def deadlineObs : Obs :=
  { cancelTop := false, cancelEmit := false, cancelBreak := false
    status := { running := false, changed := false }, flagWasSet := false
    snapshot := [], timeoutElapsed := true, progressTimeout := true }

/-- Witness for C9: a concrete terminating run whose emission list is
nonempty. -/
theorem engineWorker_emits_before_exit_witness :
    (engineWorker ['q'] true [deadlineObs]).1 ≠ [] :=
  engineWorker_emits_before_exit ['q'] true [deadlineObs] (by decide)

/-- **C8.** Within a single engine worker, consecutive emitted events always
differ in their path sequences (highlight indices are ignored): emissions
after the first are gated by `paths_changed`, and `last_sent_paths` always
records the previously emitted path sequence. -/
theorem engineWorker_dedup (query : List Char) (initOk : Bool) (trace : List Obs) :
    List.Chain' (fun e1 e2 : Emission => pathsOf e1.found ≠ pathsOf e2.found)
      (engineWorker query initOk trace).1 := by
  unfold engineWorker
  split_ifs with h
  · have hchain := (runLoop_chain query trace initLoopState).2 rfl
    rw [List.chain'_map] at hchain
    exact hchain
  · simp

/-- The observation of an iteration in which the cancellation token reads
true at all three loads, the tick (after `manager.cancel()`) reports no
running work, the notify flag is clear, and the first-result deadline has
passed. -/
def cancelledObs : Obs :=
  { cancelTop := true, cancelEmit := true, cancelBreak := true
    status := { running := false, changed := false }, flagWasSet := false
    snapshot := [], timeoutElapsed := true, progressTimeout := false }

/-- **C1 counterexample.** A worker that observes its cancellation token set
at the top of the loop can still publish a `FileSearchResult` event: if
nothing has been emitted yet (`sent_once = false`) and the first-result
deadline has passed with the tick idle, the loop sends the current (empty)
snapshot and only then breaks.  The trace is a possible run of the sticky
atomic token. -/
theorem cancelled_worker_emits_counterexample :
    cancelledObs.cancelTop = true ∧
    stickyTrace [cancelledObs] ∧
    runLoop ['a', 'b', 'c'] [cancelledObs] initLoopState
      = ([{ query := ['a', 'b', 'c'], found := [] }], true) :=
  ⟨rfl, by simp [stickyTrace, cancelledObs], by decide⟩

/-- **C1 (amended).** Once the worker's loop observes the cancellation token
true, the token (only ever stored true) keeps reading true; from then on the
worker publishes at most one further event — the single
first-result-deadline emission, possible only while nothing has been emitted
yet — and publishes nothing at all if an event had already been emitted
(`sent_once = true`). -/
theorem cancelled_worker_emits_at_most_once (query : List Char)
    (trace : List Obs) (s : LoopState)
    (hC : ∀ o ∈ trace,
      o.cancelTop = true ∧ o.cancelEmit = true ∧ o.cancelBreak = true) :
    (runLoop query trace s).1.length ≤ 1 ∧
    (s.sentOnce = true → (runLoop query trace s).1 = []) := by
  induction trace generalizing s with
  | nil => simp [runLoop]
  | cons o rest ih =>
      have hcancel := hC o (List.mem_cons_self o rest)
      have hrest : ∀ o' ∈ rest,
          o'.cancelTop = true ∧ o'.cancelEmit = true ∧ o'.cancelBreak = true :=
        fun o' ho' => hC o' (List.mem_cons_of_mem o ho')
      have hse : shouldEmit o s = false := shouldEmit_cancelled o s hcancel.2.1
      rcases loopIter_spec query o s with
        ⟨hse', _⟩ | ⟨_, ⟨hs, hit⟩ | hit | ⟨hs, hit⟩⟩
      · rw [hse] at hse'
        cases hse'
      · simp [runLoop, hit]
      · simp only [runLoop, hit, List.nil_append]
        exact ih _ hrest
      · simp only [runLoop, hit]
        refine ⟨by simp, fun hsent => ?_⟩
        rw [hsent] at hs
        cases hs

/-- Witness for C1 (amended): after an emission, a cancelled worker run
publishes nothing. -/
theorem cancelled_worker_emits_at_most_once_witness :
    (runLoop ['q'] [cancelledObs]
        { lastSentPaths := [['x']], sentOnce := true }).1 = [] :=
  (cancelled_worker_emits_at_most_once ['q'] [cancelledObs]
      { lastSentPaths := [['x']], sentOnce := true }
      (by intro o ho; rw [List.mem_singleton] at ho; subst ho; exact ⟨rfl, rfl, rfl⟩)).2 rfl

end FileSearch
